import Mathlib

/-!
Shallow embedding of the tabular feature pipeline of the p5-deeplearn-js
repository: the sample encoding and output decoding of
NeuralNetwork.predictInternal, the legacy NeuralNetwork class (its
constructor configuration and its normalize method), and the
DiyNeuralNetwork data pipeline.  JavaScript numbers are modelled as exact
rationals extended with NaN and the two signed infinities; signed zero and
rounding are not modelled, which is harmless for the properties below
(they concern definedness, order and exact algebra).
-/

/-- JavaScript number: an exact rational, NaN, or a signed infinity. -/
inductive JSNum where
  | num (q : ℚ)
  | nan
  | inf
  | ninf
deriving DecidableEq, Repr

/-- JavaScript negation on numbers. -/
def jsNeg : JSNum → JSNum
  | .num a => .num (-a)
  | .nan => .nan
  | .inf => .ninf
  | .ninf => .inf

/-- JavaScript addition on numbers. -/
def jsAdd : JSNum → JSNum → JSNum
  | .nan, _ => .nan
  | _, .nan => .nan
  | .inf, .ninf => .nan
  | .ninf, .inf => .nan
  | .inf, _ => .inf
  | _, .inf => .inf
  | .ninf, _ => .ninf
  | _, .ninf => .ninf
  | .num a, .num b => .num (a + b)

/-- JavaScript subtraction on numbers. -/
def jsSub (a b : JSNum) : JSNum := jsAdd a (jsNeg b)

/-- JavaScript multiplication on numbers. -/
def jsMul : JSNum → JSNum → JSNum
  | .nan, _ => .nan
  | _, .nan => .nan
  | .num a, .num b => .num (a * b)
  | .num a, .inf => if a = 0 then .nan else if 0 < a then .inf else .ninf
  | .inf, .num a => if a = 0 then .nan else if 0 < a then .inf else .ninf
  | .num a, .ninf => if a = 0 then .nan else if 0 < a then .ninf else .inf
  | .ninf, .num a => if a = 0 then .nan else if 0 < a then .ninf else .inf
  | .inf, .inf => .inf
  | .inf, .ninf => .ninf
  | .ninf, .inf => .ninf
  | .ninf, .ninf => .inf

/-- JavaScript division on numbers.  Division by zero of a nonzero numerator
gives an infinity, and 0 / 0 gives NaN (signed zero is not modelled). -/
def jsDiv : JSNum → JSNum → JSNum
  | .nan, _ => .nan
  | _, .nan => .nan
  | .num a, .num b =>
      if b = 0 then (if a = 0 then .nan else if 0 < a then .inf else .ninf)
      else .num (a / b)
  | .num _, .inf => .num 0
  | .num _, .ninf => .num 0
  | .inf, .num b => if 0 ≤ b then .inf else .ninf
  | .ninf, .num b => if 0 ≤ b then .ninf else .inf
  | _, _ => .nan

/-- JavaScript scalar value as it appears in a raw sample: a number, a
string, or undefined. -/
inductive JSVal where
  | num (q : ℚ)
  | str (s : String)
  | undefined
deriving DecidableEq, Repr

/-- JavaScript ToNumber coercion as used by the arithmetic operators.
Undefined converts to NaN.  String-to-number parsing is approximated as
NaN; no claim below feeds a string into the numeric path. -/
def toNumber : JSVal → JSNum
  | .num q => .num q
  | .str _ => .nan
  | .undefined => .nan

/-- JavaScript property-key coercion.  Undefined reads as the key
"undefined"; number keys go through decimal printing (approximated by the
rational printer, unexercised below). -/
def jsKey : JSVal → String
  | .str s => s
  | .num q => toString q
  | .undefined => "undefined"

/-- JavaScript object property read over an insertion-ordered,
string-keyed map; a missing property reads as undefined, modelled by
none. -/
def objGet {α : Type} (m : List (String × α)) (k : String) : Option α :=
  (m.find? (fun e => e.1 == k)).map Prod.snd

/-- Recursive worker for jsIndexOf, carrying the current index. -/
def jsIndexOfFrom (s : String) : List String → Int → Int
  | [], _ => -1
  | x :: xs, i => if x = s then i else jsIndexOfFrom s xs (i + 1)

/-- JavaScript Array.indexOf: the index of the first occurrence, or -1. -/
def jsIndexOf (l : List String) (s : String) : Int :=
  jsIndexOfFrom s l 0

/-- JavaScript array read at a possibly negative index; an out-of-range
read gives undefined. -/
def jsGetVal (l : List JSVal) (i : Int) : JSVal :=
  if i < 0 then .undefined else l.getD i.toNat .undefined

/-- JavaScript array read on a numeric array; an out-of-range read gives
undefined, which behaves as NaN in the arithmetic these reads feed. -/
def jsGetNum (l : List JSNum) (i : Int) : JSNum :=
  if i < 0 then .nan else l.getD i.toNat .nan

/-- Column dtype tag kept in the metadata, the strings "number" and
"string" in the source. -/
inductive DType where
  | number
  | string
deriving DecidableEq, Repr

/-- Per-column metadata entry of data.meta.inputs and data.meta.outputs as
read by NeuralNetwork.predictInternal: the dtype tag and, for categorical
columns, the legend mapping each vocabulary value to its one-hot array. -/
structure ColMeta where
  dtype : DType
  legend : List (String × List JSNum) := []
deriving DecidableEq, Repr

/-- The normalization expression of NeuralNetwork.predictInternal, source
lines 392 to 393: (val - inputMin[valIndex]) / (inputMax[valIndex] -
inputMin[valIndex]).  There is no guard on the denominator. -/
def normalizeVal (val mn mx : JSNum) : JSNum :=
  jsDiv (jsSub val mn) (jsSub mx mn)

/-- One column of the sample encoding in NeuralNetwork.predictInternal,
source lines 383 to 401: valIndex is looked up in the configured input
header list, the value is fetched from the input data at that index, a
numeric column contributes one normalized scalar, and a categorical column
contributes the legend entry of the value.  A legend miss gives undefined,
whose spread throws, modelled as none. -/
def encodeCol (headers : List String) (inputData : List JSVal)
    (inputMin inputMax : List JSNum) (prop : String) (cm : ColMeta) :
    Option (List JSNum) :=
  let valIndex := jsIndexOf headers prop
  let val := jsGetVal inputData valIndex
  match cm.dtype with
  | .number =>
      some [normalizeVal (toNumber val) (jsGetNum inputMin valIndex)
              (jsGetNum inputMax valIndex)]
  | .string => objGet cm.legend (jsKey val)

/-- The encoded input vector assembled by iterating the entries of
data.meta.inputs in order, source lines 383 to 401.  A thrown spread of
undefined aborts the whole forEach, so any failing categorical column
makes the overall result none. -/
def encodeInput (metaInputs : List (String × ColMeta)) (headers : List String)
    (inputData : List JSVal) (inputMin inputMax : List JSNum) :
    Option (List JSNum) :=
  match metaInputs with
  | [] => some []
  | (prop, cm) :: rest => do
      let v ← encodeCol headers inputData inputMin inputMax prop cm
      let r ← encodeInput rest headers inputData inputMin inputMax
      pure (v ++ r)

/-- Per-column regression decoding expression of predictInternal, source
line 439: predictions[idx] * (outputMax[idx] - outputMin[idx]) +
outputMin[idx]. -/
def decodeRegVal (p mn mx : JSNum) : JSNum :=
  jsAdd (jsMul p (jsSub mx mn)) mn

/-- The regression branch of predictInternal, source lines 434 to 443: map
over the entries of data.meta.outputs with their position idx (the source
then keeps the first element of this list). -/
def decodeRegression (metaOutputs : List (String × ColMeta))
    (predictions outputMin outputMax : List JSNum) : List JSNum :=
  (List.range metaOutputs.length).map fun idx : ℕ =>
    decodeRegVal (jsGetNum predictions (idx : ℤ)) (jsGetNum outputMin (idx : ℤ))
      (jsGetNum outputMax (idx : ℤ))

/-- C1: if some categorical (string dtype) input column has a sample value
that is not a key of its legend, the predictInternal encoding fails (the
legend read gives undefined and its spread throws): the whole encoded
input is none, never an all-zero or wrong-length one-hot sub-vector. -/
theorem encodeInput_unseen_value_fails
    (metaInputs : List (String × ColMeta)) (headers : List String)
    (inputData : List JSVal) (inputMin inputMax : List JSNum)
    (prop : String) (cm : ColMeta)
    (hmem : (prop, cm) ∈ metaInputs) (hdtype : cm.dtype = DType.string)
    (hmiss : objGet cm.legend
      (jsKey (jsGetVal inputData (jsIndexOf headers prop))) = none) :
    encodeInput metaInputs headers inputData inputMin inputMax = none := by
  induction metaInputs with
  | nil => cases hmem
  | cons head rest ih =>
    obtain ⟨p, c⟩ := head
    rcases List.mem_cons.mp hmem with heq | hmem2
    · rw [Prod.mk.injEq] at heq
      obtain ⟨hp, hc⟩ := heq
      subst hp
      subst hc
      simp only [encodeInput, encodeCol, hdtype, hmiss, Option.bind_eq_bind,
        Option.none_bind]
    · have hrest := ih hmem2
      simp only [encodeInput, hrest, Option.bind_eq_bind]
      cases encodeCol headers inputData inputMin inputMax p c <;> simp

/-- Witness for C1 at the spec scenario: the sample value green is not in
the color vocabulary, so the encoding fails. -/
theorem encodeInput_unseen_value_fails_witness :
    encodeInput
      [("color", { dtype := DType.string,
                   legend := [("red", [JSNum.num 1, JSNum.num 0]),
                              ("blue", [JSNum.num 0, JSNum.num 1])] })]
      ["color"] [JSVal.str "green"] [] [] = none :=
  encodeInput_unseen_value_fails _ _ _ _ _ "color" _
    (List.Mem.head _) rfl rfl

/-- C2 (code bug): the source normalization of predictInternal has no
guard on the denominator; for a constant column with recorded min = max =
7 and sample value 7 it computes (7 - 7) / (7 - 7) = NaN instead of a
defined constant. -/
theorem encodeInput_constant_column_nan :
    encodeInput [("x", { dtype := DType.number })] ["x"] [JSVal.num 7]
      [JSNum.num 7] [JSNum.num 7] = some [JSNum.nan] := by
  norm_num [encodeInput, encodeCol, normalizeVal, jsIndexOf, jsIndexOfFrom,
    jsGetVal, jsGetNum, toNumber, jsSub, jsAdd, jsNeg, jsDiv, Option.bind]

/-- Reading a mapped rational array through the JavaScript array read at a
valid nonnegative index yields the underlying rational. -/
theorem jsGetNum_map_num (l : List ℚ) (i : ℕ) (h : i < l.length) :
    jsGetNum (l.map JSNum.num) (i : ℤ) = JSNum.num (l.getD i 0) := by
  rw [jsGetNum, if_neg (by omega)]
  simp [List.getD_eq_getElem?_getD, List.getElem?_map,
    List.getElem?_eq_getElem h]

/-- The regression decoding expression on rational operands evaluates with
no NaN or infinity. -/
theorem decodeRegVal_num (p mn mx : ℚ) :
    decodeRegVal (JSNum.num p) (JSNum.num mn) (JSNum.num mx)
      = JSNum.num (p * (mx + -mn) + mn) := by
  simp [decodeRegVal, jsSub, jsNeg, jsAdd, jsMul]

/-- C3: at every output column index with recorded rational bounds and a
rational activation, the regression decoding returns exactly
p * (max - min) + min. -/
theorem decodeRegression_formula
    (metaOutputs : List (String × ColMeta))
    (predictions outputMin outputMax : List ℚ) (idx : ℕ)
    (h1 : idx < metaOutputs.length) (h2 : idx < predictions.length)
    (h3 : idx < outputMin.length) (h4 : idx < outputMax.length) :
    (decodeRegression metaOutputs (predictions.map JSNum.num)
        (outputMin.map JSNum.num) (outputMax.map JSNum.num)).getD idx JSNum.nan
      = JSNum.num (predictions.getD idx 0 *
          (outputMax.getD idx 0 - outputMin.getD idx 0) +
          outputMin.getD idx 0) := by
  rw [decodeRegression, List.getD_eq_getElem?_getD, List.getElem?_map,
    List.getElem?_range h1]
  simp only [Option.map_some', Option.getD_some]
  rw [jsGetNum_map_num _ _ h2, jsGetNum_map_num _ _ h3,
    jsGetNum_map_num _ _ h4, decodeRegVal_num, sub_eq_add_neg]

/-- Witness for C3 at a concrete regression column. -/
theorem decodeRegression_formula_witness :
    (decodeRegression [("y", { dtype := DType.number })]
        (([2] : List ℚ).map JSNum.num) (([3] : List ℚ).map JSNum.num)
        (([5] : List ℚ).map JSNum.num)).getD 0 JSNum.nan
      = JSNum.num (([2] : List ℚ).getD 0 0 *
          (([5] : List ℚ).getD 0 0 - ([3] : List ℚ).getD 0 0) +
          ([3] : List ℚ).getD 0 0) :=
  decodeRegression_formula [("y", { dtype := DType.number })] [2] [3] [5] 0
    (by norm_num) (by norm_num) (by norm_num) (by norm_num)

/-- C4: for a numeric output column with min strictly below max, the
regression decoding inverts the encoding normalization exactly: decoding
the normalized value recovers the original value. -/
theorem normalize_decode_round_trip (v mn mx : ℚ) (h : mn < mx) :
    decodeRegVal (normalizeVal (JSNum.num v) (JSNum.num mn) (JSNum.num mx))
      (JSNum.num mn) (JSNum.num mx) = JSNum.num v := by
  have hne : mx + -mn ≠ 0 := by
    intro hz
    rw [add_neg_eq_zero] at hz
    exact absurd hz (ne_of_gt h)
  simp only [normalizeVal, decodeRegVal, jsSub, jsNeg, jsAdd, jsDiv, jsMul,
    hne, if_neg]
  field_simp

/-- Witness for C4 at v = 4, min = 3, max = 5. -/
theorem normalize_decode_round_trip_witness :
    decodeRegVal (normalizeVal (JSNum.num 4) (JSNum.num 3) (JSNum.num 5))
      (JSNum.num 3) (JSNum.num 5) = JSNum.num 4 :=
  normalize_decode_round_trip 4 3 5 (by norm_num)

/-- The label and confidence pairs built in the classification branch of
predictInternal, source lines 421 to 426: each entry of the legend of the
first output column, in insertion order, paired with the prediction at its
entry position idx. -/
def decodePairs (legend : List (String × List JSNum))
    (predictions : List ℚ) : List (String × ℚ) :=
  legend.enum.map fun e => (e.2.1, predictions.getD e.1 0)

/-- The boolean ordering induced by the source comparator
b.confidence - a.confidence: a may stay before b exactly when the
confidence of a is at least that of b. -/
def confLE (a b : String × ℚ) : Bool := decide (b.2 ≤ a.2)

/-- The classification decoding of predictInternal, source lines 415 to
428: the label and confidence pairs sorted descending by confidence;
Array.prototype.sort is stable, modelled by the stable mergeSort. -/
def decodeClassification (legend : List (String × List JSNum))
    (predictions : List ℚ) : List (String × ℚ) :=
  (decodePairs legend predictions).mergeSort confLE

/-- When the prediction vector covers the legend, the source pairing is
exactly the zip of the vocabulary labels with the activations at the
matching vocabulary indices. -/
theorem decodePairs_eq_zip (legend : List (String × List JSNum))
    (predictions : List ℚ)
    (hlen : legend.length ≤ predictions.length) :
    decodePairs legend predictions
      = (legend.map Prod.fst).zip predictions := by
  apply List.ext_getElem?
  intro i
  by_cases hi : i < legend.length
  · have hip : i < predictions.length := lt_of_lt_of_le hi hlen
    rw [decodePairs, List.zip_eq_zipWith]
    simp [List.getElem?_zipWith, List.getElem?_eq_getElem hi,
      List.getElem?_eq_getElem hip, List.getD_eq_getElem?_getD,
      List.enum]
  · push_neg at hi
    have h1 : (decodePairs legend predictions)[i]? = none := by
      apply List.getElem?_eq_none
      simp only [decodePairs, List.length_map, List.enum_length]
      exact hi
    have h2 : ((legend.map Prod.fst).zip predictions)[i]? = none := by
      apply List.getElem?_eq_none
      rw [List.length_zip, List.length_map]
      omega
    rw [h1, h2]

/-- The source comparator ordering is transitive. -/
theorem confLE_trans (a b c : String × ℚ) (h1 : confLE a b)
    (h2 : confLE b c) : confLE a c := by
  simp only [confLE, decide_eq_true_eq] at h1 h2 ⊢
  exact le_trans h2 h1

/-- The source comparator ordering is total. -/
theorem confLE_total (a b : String × ℚ) : confLE a b || confLE b a := by
  simp only [confLE, Bool.or_eq_true, decide_eq_true_eq]
  exact le_total b.2 a.2

/-- C5: the classification decoding is a permutation of the pairs of
vocabulary labels with the activations at their vocabulary indices, is
sorted in descending order of confidence, and breaks confidence ties
stably: within each confidence value the original vocabulary order is
kept. -/
theorem decodeClassification_ranked_stable
    (legend : List (String × List JSNum)) (predictions : List ℚ)
    (hlen : legend.length ≤ predictions.length) :
    List.Perm (decodeClassification legend predictions)
        ((legend.map Prod.fst).zip predictions) ∧
      List.Pairwise (fun a b : String × ℚ => b.2 ≤ a.2)
        (decodeClassification legend predictions) ∧
      ∀ q : ℚ,
        (decodeClassification legend predictions).filter
            (fun e => decide (e.2 = q))
          = ((legend.map Prod.fst).zip predictions).filter
              (fun e => decide (e.2 = q)) := by
  have hz := decodePairs_eq_zip legend predictions hlen
  refine ⟨?_, ?_, ?_⟩
  · rw [decodeClassification, hz]
    exact List.mergeSort_perm _ _
  · have h := List.sorted_mergeSort confLE_trans confLE_total
      (decodePairs legend predictions)
    rw [decodeClassification]
    exact h.imp (fun hab => by
      simpa only [confLE, decide_eq_true_eq] using hab)
  · intro q
    rw [← hz, decodeClassification]
    have hsub : List.Sublist
        ((decodePairs legend predictions).filter
          (fun e => decide (e.2 = q)))
        (decodePairs legend predictions) :=
      List.filter_sublist _
    have hpw : ((decodePairs legend predictions).filter
        (fun e => decide (e.2 = q))).Pairwise (fun a b => confLE a b) := by
      apply List.pairwise_of_forall_mem_list
      intro a ha b hb
      have ha2 := (List.mem_filter.mp ha).2
      have hb2 := (List.mem_filter.mp hb).2
      simp only [decide_eq_true_eq] at ha2 hb2
      simp [confLE, ha2, hb2]
    have hstab := List.sublist_mergeSort confLE_trans confLE_total hpw hsub
    have hself : ((decodePairs legend predictions).filter
        (fun e => decide (e.2 = q))).filter (fun e => decide (e.2 = q))
        = (decodePairs legend predictions).filter
            (fun e => decide (e.2 = q)) :=
      List.filter_eq_self.mpr (fun a ha => (List.mem_filter.mp ha).2)
    have h1 : List.Sublist
        ((decodePairs legend predictions).filter
          (fun e => decide (e.2 = q)))
        (((decodePairs legend predictions).mergeSort confLE).filter
          (fun e => decide (e.2 = q))) := by
      have hf := hstab.filter (fun e => decide (e.2 = q))
      rwa [hself] at hf
    have hlq : (((decodePairs legend predictions).mergeSort confLE).filter
        (fun e => decide (e.2 = q))).length
        = ((decodePairs legend predictions).filter
            (fun e => decide (e.2 = q))).length :=
      ((List.mergeSort_perm (decodePairs legend predictions) confLE).filter
        (fun e => decide (e.2 = q))).length_eq
    exact (h1.eq_of_length hlq.symm).symm

/-- Witness for C5 at the spec scenario vocabulary red, blue with
activations 3 / 10 and 7 / 10. -/
theorem decodeClassification_ranked_stable_witness :
    List.Perm
        (decodeClassification
          [("red", [JSNum.num 1, JSNum.num 0]),
           ("blue", [JSNum.num 0, JSNum.num 1])] [3 / 10, 7 / 10])
        (([("red", [JSNum.num 1, JSNum.num 0]),
           ("blue", [JSNum.num 0, JSNum.num 1])].map Prod.fst).zip
          [3 / 10, 7 / 10]) ∧
      List.Pairwise (fun a b : String × ℚ => b.2 ≤ a.2)
        (decodeClassification
          [("red", [JSNum.num 1, JSNum.num 0]),
           ("blue", [JSNum.num 0, JSNum.num 1])] [3 / 10, 7 / 10]) ∧
      ∀ q : ℚ,
        (decodeClassification
            [("red", [JSNum.num 1, JSNum.num 0]),
             ("blue", [JSNum.num 0, JSNum.num 1])] [3 / 10, 7 / 10]).filter
            (fun e => decide (e.2 = q))
          = (([("red", [JSNum.num 1, JSNum.num 0]),
              ("blue", [JSNum.num 0, JSNum.num 1])].map Prod.fst).zip
              [3 / 10, 7 / 10]).filter (fun e => decide (e.2 = q)) :=
  decodeClassification_ranked_stable
    [("red", [JSNum.num 1, JSNum.num 0]),
     ("blue", [JSNum.num 0, JSNum.num 1])] [3 / 10, 7 / 10] (by norm_num)

/-- Global maximum of a flattened tensor of rationals, the tf max call
with no axis argument; an empty tensor gives negative infinity. -/
def tensorMax (l : List ℚ) : JSNum :=
  match l with
  | [] => .ninf
  | x :: xs => .num (xs.foldl max x)

/-- Global minimum of a flattened tensor of rationals; an empty tensor
gives positive infinity. -/
def tensorMin (l : List ℚ) : JSNum :=
  match l with
  | [] => .inf
  | x :: xs => .num (xs.foldl min x)

/-- Result record of the legacy NeuralNetwork.normalize, source lines 692
to 737, on the regression task path where the output tensor is the raw
target list. -/
structure LegacyNormalized where
  inputs : List (List JSNum)
  targets : List JSNum
  inputMax : JSNum
  inputMin : JSNum
  targetMax : JSNum
  targetMin : JSNum
deriving DecidableEq, Repr

/-- The legacy NeuralNetwork.normalize, source lines 692 to 737, on the
regression path.  The inputs are column major, one inner list per input
label as built on source line 701.  The normalized inputs follow source
line 720, inputTensor.sub(targetMin).div(targetMax.sub(inputMin)), which
mixes the target bounds into the input normalization; the normalized
outputs follow source line 723. -/
def legacyNormalize (inputs : List (List ℚ)) (targets : List ℚ) :
    LegacyNormalized :=
  let inputMax := tensorMax inputs.flatten
  let inputMin := tensorMin inputs.flatten
  let targetMax := tensorMax targets
  let targetMin := tensorMin targets
  { inputs := inputs.map fun col => col.map fun x =>
      jsDiv (jsSub (.num x) targetMin) (jsSub targetMax inputMin),
    targets := targets.map fun y =>
      jsDiv (jsSub (.num y) targetMin) (jsSub targetMax targetMin),
    inputMax := inputMax,
    inputMin := inputMin,
    targetMax := targetMax,
    targetMin := targetMin }

/-- C6 (code bug): the legacy normalize does not rescale a numeric input
column by that same column its own min and max: with one input column
holding the values 0 and 1 and targets 10 and 20, the column normalizes
to -1/2 and -9/20 instead of 0 and 1, so a normalized training value
falls outside [0, 1]. -/
theorem legacyNormalize_mixes_bounds :
    (legacyNormalize [[0, 1]] [10, 20]).inputs
        = [[JSNum.num (-(1 / 2)), JSNum.num (-(9 / 20))]] ∧
      (legacyNormalize [[0, 1]] [10, 20]).inputs
        ≠ [[JSNum.num 0, JSNum.num 1]] ∧
      ¬ ((0 : ℚ) ≤ -(1 / 2)) := by
  refine ⟨?_, ?_, by norm_num⟩ <;>
    norm_num [legacyNormalize, tensorMax, tensorMin, jsSub, jsNeg, jsAdd,
      jsDiv, List.flatten]

/-- JavaScript String.prototype.endsWith, over the character lists. -/
def jsEndsWith (s pat : String) : Bool :=
  List.isSuffixOf pat.data s.data

/-- JavaScript String.prototype.includes, over the character lists. -/
def jsIncludes (s sub : String) : Bool :=
  (List.range (s.data.length + 1)).any fun i =>
    List.isPrefixOf sub.data (s.data.drop i)

/-- The four branches of the dataUrl dispatch in
DiyNeuralNetwork.loadDataInternal, source part_000 lines 67 to 75; the
last branch only logs Not a valid data format to the console. -/
inductive LoadBranch where
  | csv
  | json
  | blob
  | logInvalid
deriving DecidableEq, Repr

/-- The dataUrl dispatch of DiyNeuralNetwork.loadDataInternal, source
part_000 lines 67 to 75. -/
def loadBranchFor (dataUrl : String) : LoadBranch :=
  if jsEndsWith dataUrl ".csv" then .csv
  else if jsEndsWith dataUrl ".json" then .json
  else if jsIncludes dataUrl "blob" then .blob
  else .logInvalid

/-- Observable outcome of one DiyNeuralNetwork.loadDataInternal call: the
branch taken, whether an error was surfaced to the caller, and whether
execution went on to createMetaDataFromData and warmUp. -/
structure LoadOutcome where
  branch : LoadBranch
  errorSurfaced : Bool
  ranMetadataAndWarmUp : Bool
deriving DecidableEq, Repr

/-- DiyNeuralNetwork.loadDataInternal, source part_000 lines 60 to 81: no
branch throws or rejects (the invalid format branch is a bare console
log), and control always reaches createMetaDataFromData and warmUp on
lines 79 and 80. -/
def loadDataInternal (dataUrl : String) : LoadOutcome :=
  { branch := loadBranchFor dataUrl,
    errorSurfaced := false,
    ranMetadataAndWarmUp := true }

/-- C7 counterexample: for the locator mydata.txt, whose format is none of
csv, json or blob, loadDataInternal surfaces no error and still continues
to metadata creation and warm up, contradicting the claim that loading
fails fatally with an UnsupportedFormat error. -/
theorem loadDataInternal_txt_counterexample :
    loadBranchFor "mydata.txt" = LoadBranch.logInvalid ∧
      (loadDataInternal "mydata.txt").errorSurfaced = false ∧
      (loadDataInternal "mydata.txt").ranMetadataAndWarmUp = true := by
  refine ⟨?_, rfl, rfl⟩
  decide

/-- C7 amended: for every locator that is not csv, json or blob, the
loader takes the branch that only logs Not a valid data format and
continues: no error is surfaced and metadata creation and warm up still
run. -/
theorem loadDataInternal_invalid_logs_and_continues (dataUrl : String)
    (h1 : jsEndsWith dataUrl ".csv" = false)
    (h2 : jsEndsWith dataUrl ".json" = false)
    (h3 : jsIncludes dataUrl "blob" = false) :
    loadDataInternal dataUrl
      = { branch := LoadBranch.logInvalid, errorSurfaced := false,
          ranMetadataAndWarmUp := true } := by
  simp [loadDataInternal, loadBranchFor, h1, h2, h3]

/-- Witness for C7 amended at the locator mydata.txt. -/
theorem loadDataInternal_invalid_logs_and_continues_witness :
    loadDataInternal "mydata.txt"
      = { branch := LoadBranch.logInvalid, errorSurfaced := false,
          ranMetadataAndWarmUp := true } :=
  loadDataInternal_invalid_logs_and_continues "mydata.txt"
    (by decide) (by decide) (by decide)

/-- Options object accepted by the legacy NeuralNetwork constructor,
source lines 528 to 547; an absent property is undefined, modelled by
none. -/
structure LegacyOptions where
  task : Option String := none
  debug : Option Bool := none
  activationHidden : Option String := none
  activationOutput : Option String := none
  inputs : Option ℚ := none
  outputs : Option ℚ := none
  noVal : Option ℚ := none
  hiddenUnits : Option ℚ := none
  learningRate : Option ℚ := none
  modelMetrics : Option (List String) := none
  modelLoss : Option String := none
  modelOptimizer : Option String := none
  batchSize : Option ℚ := none
  epochs : Option ℚ := none
deriving DecidableEq, Repr

/-- The JavaScript idiom x || d on an optional number: undefined and 0 are
falsy (NaN is too, but an option never carries NaN here). -/
def numOr (v : Option ℚ) (d : ℚ) : ℚ :=
  match v with
  | none => d
  | some x => if x = 0 then d else x

/-- The idiom x || d on an optional string: undefined and the empty string
are falsy. -/
def strOr (v : Option String) (d : String) : String :=
  match v with
  | none => d
  | some x => if x = "" then d else x

/-- The idiom x || d on an optional boolean. -/
def boolOr (v : Option Bool) (d : Bool) : Bool :=
  match v with
  | none => d
  | some x => if x then x else d

/-- The idiom x || y where both sides stay optional numbers, as in
options.noVal || options.outputs. -/
def optOr (v w : Option ℚ) : Option ℚ :=
  match v with
  | none => w
  | some x => if x = 0 then w else some x

/-- The idiom x || d on an optional string list (modelMetrics); any array
object is truthy in JavaScript, even the empty one. -/
def listOr (v : Option (List String)) (d : List String) : List String :=
  match v with
  | none => d
  | some x => x

/-- The idiom x || null on an optional string (modelOptimizer, whose
default is null). -/
def strOrNull (v : Option String) : Option String :=
  match v with
  | none => none
  | some x => if x = "" then none else some x

/-- The configuration record assembled by the legacy NeuralNetwork
constructor, source lines 531 to 547. -/
structure LegacyConfig where
  task : String
  debug : Bool
  activationHidden : String
  activationOutput : String
  inputUnits : ℚ
  outputUnits : ℚ
  noVal : Option ℚ
  hiddenUnits : ℚ
  learningRate : ℚ
  modelMetrics : List String
  modelLoss : String
  modelOptimizer : Option String
  batchSize : ℚ
  epochs : ℚ
deriving DecidableEq, Repr

/-- The legacy constructor configuration, source lines 531 to 547, with
the defaults of source lines 503 to 521.  Source line 541 reads
learningRate: options.outputs || DEFAULTS.learningRate. -/
def legacyConfig (options : LegacyOptions) : LegacyConfig :=
  { task := strOr options.task "regression",
    debug := boolOr options.debug true,
    activationHidden := strOr options.activationHidden "sigmoid",
    activationOutput := strOr options.activationOutput "sigmoid",
    inputUnits := numOr options.inputs 2,
    outputUnits := numOr options.outputs 1,
    noVal := optOr options.noVal options.outputs,
    hiddenUnits := numOr options.hiddenUnits 1,
    learningRate := numOr options.outputs (25 / 100),
    modelMetrics := listOr options.modelMetrics ["accuracy"],
    modelLoss := strOr options.modelLoss "meanSquaredError",
    modelOptimizer := strOrNull options.modelOptimizer,
    batchSize := numOr options.batchSize 64,
    epochs := numOr options.epochs 32 }

/-- C10: whenever options.outputs is truthy, the configured learningRate
equals options.outputs, not any learningRate option and not the default
0.25; and the constructor never reads a learningRate option, so the whole
configuration is invariant under changing it. -/
theorem legacyConfig_learningRate_from_outputs
    (options : LegacyOptions) (v : ℚ) (hv : options.outputs = some v)
    (hnz : v ≠ 0) :
    (legacyConfig options).learningRate = v ∧
      ∀ lr : Option ℚ,
        legacyConfig { options with learningRate := lr }
          = legacyConfig options := by
  constructor
  · simp [legacyConfig, numOr, hv, hnz]
  · intro lr
    rfl

/-- Options record used by the C10 witness: outputs 5 and an explicit
learningRate option of 1 / 10. -/
def sampleLegacyOptions : LegacyOptions :=
  { outputs := some 5, learningRate := some (1 / 10) }

/-- Witness for C10: with outputs 5 and an explicit learningRate option of
1 / 10, the configured learningRate is 5. -/
theorem legacyConfig_learningRate_from_outputs_witness :
    (legacyConfig sampleLegacyOptions).learningRate = 5 ∧
      ∀ lr : Option ℚ,
        legacyConfig { sampleLegacyOptions with learningRate := lr }
          = legacyConfig sampleLegacyOptions :=
  legacyConfig_learningRate_from_outputs sampleLegacyOptions 5 rfl
    (by norm_num)

/-- Modelled from the spec: the total post-encoding input feature width,
inputUnits of DatasetMeta.  NeuralNetworkData.getIOUnits is not under src;
spec section 3 fixes one unit per numeric column and the vocabulary size
per categorical column. -/
def inputUnitsOf (metaInputs : List (String × ColMeta)) : ℕ :=
  (metaInputs.map fun e =>
    match e.2.dtype with
    | .number => 1
    | .string => e.2.legend.length).sum

/-- Modelled from the spec: the per-column sub-vector of a training row.
NeuralNetworkData.convertRawToTensors is not under src; spec sections 4.3
and 4.4 fix that a numeric column contributes its one normalized scalar
and a categorical column its one-hot vector from the legend, identically
for training rows and for a prediction sample built from the same
DatasetMeta. -/
def trainColEncode (headers : List String) (inputData : List JSVal)
    (inputMin inputMax : List JSNum) (prop : String) (cm : ColMeta) :
    List JSNum :=
  let valIndex := jsIndexOf headers prop
  let val := jsGetVal inputData valIndex
  match cm.dtype with
  | .number =>
      [normalizeVal (toNumber val) (jsGetNum inputMin valIndex)
        (jsGetNum inputMax valIndex)]
  | .string => (objGet cm.legend (jsKey val)).getD []

/-- Modelled from the spec: a full training row, the concatenation of the
per-column sub-vectors in the fixed DatasetMeta iteration order (spec
section 4.3). -/
def trainRowEncode (metaInputs : List (String × ColMeta))
    (headers : List String) (inputData : List JSVal)
    (inputMin inputMax : List JSNum) : List JSNum :=
  (metaInputs.map fun e =>
    trainColEncode headers inputData inputMin inputMax e.1 e.2).flatten

/-- A successful legend lookup returns a one-hot array stored in the
legend. -/
theorem objGet_mem {α : Type} (m : List (String × α)) (k : String) (a : α)
    (h : objGet m k = some a) : ∃ p, (p, a) ∈ m := by
  rw [objGet] at h
  cases hfind : m.find? (fun e => e.1 == k) with
  | none => rw [hfind] at h; cases h
  | some e =>
      rw [hfind] at h
      simp only [Option.map_some', Option.some.injEq] at h
      refine ⟨e.1, ?_⟩
      have hm := List.mem_of_find?_eq_some hfind
      rw [← h]
      simpa using hm

/-- C8: when every categorical value of the sample is in its legend and
each legend one-hot array has the vocabulary length, the predictInternal
encoding succeeds, equals the spec-modelled training row built from the
same DatasetMeta in the same column iteration order, and has length
exactly inputUnits. -/
theorem encodeInput_width_and_order
    (metaInputs : List (String × ColMeta)) (headers : List String)
    (inputData : List JSVal) (inputMin inputMax : List JSNum)
    (hwf : ∀ e ∈ metaInputs, ∀ kv ∈ e.2.legend,
      kv.2.length = e.2.legend.length)
    (hin : ∀ e ∈ metaInputs, e.2.dtype = DType.string →
      objGet e.2.legend
        (jsKey (jsGetVal inputData (jsIndexOf headers e.1))) ≠ none) :
    encodeInput metaInputs headers inputData inputMin inputMax
        = some (trainRowEncode metaInputs headers inputData inputMin
            inputMax) ∧
      (trainRowEncode metaInputs headers inputData inputMin
          inputMax).length
        = inputUnitsOf metaInputs := by
  induction metaInputs with
  | nil => exact ⟨rfl, rfl⟩
  | cons head rest ih =>
    obtain ⟨hrec, hlen⟩ := ih
      (fun e he => hwf e (List.mem_cons_of_mem _ he))
      (fun e he => hin e (List.mem_cons_of_mem _ he))
    obtain ⟨prop, cm⟩ := head
    cases hdt : cm.dtype with
    | number =>
        constructor
        · simp only [encodeInput, encodeCol, hdt, hrec, trainRowEncode,
            trainColEncode, List.map_cons, List.flatten_cons,
            Option.bind_eq_bind, Option.some_bind]
          rfl
        · simp only [trainRowEncode, trainColEncode, hdt, inputUnitsOf,
            List.map_cons, List.flatten_cons, List.sum_cons,
            List.length_append, List.length_cons, List.length_nil]
          simp only [trainRowEncode, trainColEncode, inputUnitsOf] at hlen
          omega
    | string =>
        have hsome := hin (prop, cm) (List.mem_cons_self _ _) hdt
        obtain ⟨oh, hoh⟩ := Option.ne_none_iff_exists.mp hsome
        obtain ⟨p0, hp0⟩ := objGet_mem _ _ _ hoh.symm
        have hohlen : oh.length = cm.legend.length :=
          hwf (prop, cm) (List.mem_cons_self _ _) (p0, oh) hp0
        constructor
        · simp only [encodeInput, encodeCol, hdt, hrec, trainRowEncode,
            trainColEncode, List.map_cons, List.flatten_cons, ← hoh,
            Option.bind_eq_bind, Option.some_bind, Option.getD_some]
          rfl
        · simp only [trainRowEncode, trainColEncode, hdt, inputUnitsOf,
            List.map_cons, List.flatten_cons, List.sum_cons,
            List.length_append, ← hoh, Option.getD_some]
          simp only [trainRowEncode, trainColEncode, inputUnitsOf] at hlen
          omega

/-- Input metadata used by the C8 witness: a categorical color column with
vocabulary red, blue and a numeric size column. -/
def sampleMetaInputs : List (String × ColMeta) :=
  [("color", { dtype := DType.string,
               legend := [("red", [JSNum.num 1, JSNum.num 0]),
                          ("blue", [JSNum.num 0, JSNum.num 1])] }),
   ("size", { dtype := DType.number })]

/-- Witness for C8 at the sample color red, size 4 with recorded size
bounds 3 and 5. -/
theorem encodeInput_width_and_order_witness :
    encodeInput sampleMetaInputs ["color", "size"]
        [JSVal.str "red", JSVal.num 4] [JSNum.num 0, JSNum.num 3]
        [JSNum.num 0, JSNum.num 5]
        = some (trainRowEncode sampleMetaInputs ["color", "size"]
            [JSVal.str "red", JSVal.num 4] [JSNum.num 0, JSNum.num 3]
            [JSNum.num 0, JSNum.num 5]) ∧
      (trainRowEncode sampleMetaInputs ["color", "size"]
          [JSVal.str "red", JSVal.num 4] [JSNum.num 0, JSNum.num 3]
          [JSNum.num 0, JSNum.num 5]).length
        = inputUnitsOf sampleMetaInputs :=
  encodeInput_width_and_order sampleMetaInputs ["color", "size"]
    [JSVal.str "red", JSVal.num 4] [JSNum.num 0, JSNum.num 3]
    [JSNum.num 0, JSNum.num 5] (by decide) (by decide)

/-- One raw record of the DiyNeuralNetwork data, with its xs and ys keyed
scalar values. -/
structure Row where
  xs : List (String × JSVal)
  ys : List (String × JSVal)
deriving DecidableEq, Repr

/-- Per-column metadata produced by schema inference and the statistics
pass: the dtype, the vocabulary in first-seen order for a categorical
column, and the min and max for a numeric column. -/
structure SpecColMeta where
  dtype : DType
  vocab : List String := []
  minVal : Option ℚ := none
  maxVal : Option ℚ := none
deriving DecidableEq, Repr

/-- Distinct values in first-seen order (spec section 4.1: insertion order
determines the one-hot index assignment). -/
def distinctInOrder (l : List String) : List String :=
  l.foldl (fun acc v => if v ∈ acc then acc else acc ++ [v]) []

/-- Minimum of a rational list, none when empty. -/
def listMinQ : List ℚ → Option ℚ
  | [] => none
  | x :: xs => some (xs.foldl min x)

/-- Maximum of a rational list, none when empty. -/
def listMaxQ : List ℚ → Option ℚ
  | [] => none
  | x :: xs => some (xs.foldl max x)

/-- Modelled from the spec: the per-column schema inference of
NeuralNetworkData.createMetaDataFromData, which is not under src.  Spec
section 4.1: the dtype is decided by the type of the first observed value
of the column, and the vocabulary of a categorical column is the list of
distinct observed values in first-seen order. -/
def inferColMeta (raw : List Row) (proj : Row → List (String × JSVal))
    (name : String) : SpecColMeta :=
  let firstVal := (objGet (proj (raw.headD ⟨[], []⟩)) name).getD .undefined
  match firstVal with
  | .num _ => { dtype := .number }
  | _ =>
      { dtype := .string,
        vocab := distinctInOrder (raw.filterMap fun r =>
          match (objGet (proj r) name).getD .undefined with
          | .str s => some s
          | _ => none) }

/-- Modelled from the spec: NeuralNetworkData.createMetaDataFromData,
which is not under src.  Per spec section 4.1 it is a pure function of the
ordered raw dataset: the input and output column names are taken from the
first record and each column receives an inferred SpecColMeta. -/
def createMetaModel (raw : List Row) :
    List (String × SpecColMeta) × List (String × SpecColMeta) :=
  (((raw.headD ⟨[], []⟩).xs.map Prod.fst).map fun n =>
      (n, inferColMeta raw Row.xs n),
   ((raw.headD ⟨[], []⟩).ys.map Prod.fst).map fun n =>
      (n, inferColMeta raw Row.ys n))

/-- Modelled from the spec: NeuralNetworkData.getRawStats, which is not
under src.  Spec section 4.2: for every numeric column the min and max
across all rows are recorded; categorical columns are untouched here. -/
def getRawStatsModel (raw : List Row) (cols : List (String × SpecColMeta))
    (proj : Row → List (String × JSVal)) : List (String × SpecColMeta) :=
  cols.map fun e =>
    match e.2.dtype with
    | .number =>
        let vals := raw.filterMap fun r =>
          match (objGet (proj r) e.1).getD .undefined with
          | .num q => some q
          | _ => none
        (e.1, { e.2 with minVal := listMinQ vals, maxVal := listMaxQ vals })
    | .string => e

/-- The mutable state of one DiyNeuralNetwork, restricted to the fields
the metadata pass reads and writes: the raw data and the stored input and
output metadata. -/
structure PipelineState where
  raw : List Row
  metaIn : List (String × SpecColMeta) := []
  metaOut : List (String × SpecColMeta) := []
deriving DecidableEq, Repr

/-- DiyNeuralNetwork.createMetaDataFromData, source part_000 lines 88 to
94: reads data.raw, recomputes the metadata from it (through the
spec-modelled createMetaModel) and stores it, leaving the raw data
untouched. -/
def createMetaDataFromData (s : PipelineState) : PipelineState :=
  { s with metaIn := (createMetaModel s.raw).1,
           metaOut := (createMetaModel s.raw).2 }

/-- DiyNeuralNetwork.summarizeData, source part_000 lines 102 to 113:
reads data.raw and the stored metadata, recomputes the per-column stats
(through the spec-modelled getRawStatsModel) and stores them back. -/
def summarizeData (s : PipelineState) : PipelineState :=
  { s with metaIn := getRawStatsModel s.raw s.metaIn Row.xs,
           metaOut := getRawStatsModel s.raw s.metaOut Row.ys }

/-- The full metadata pass: schema inference followed by the statistics
pass, as run by loadDataInternal and warmUp. -/
def metaPass (s : PipelineState) : PipelineState :=
  summarizeData (createMetaDataFromData s)

/-- C9: the metadata pass is a deterministic function of the raw dataset:
two states with the same raw rows, whatever metadata they currently hold,
receive identical ColumnMeta; in particular re-running the pass a second
time reproduces the metadata of the first run. -/
theorem metaPass_deterministic (s t : PipelineState)
    (hraw : s.raw = t.raw) :
    (metaPass s).metaIn = (metaPass t).metaIn ∧
      (metaPass s).metaOut = (metaPass t).metaOut ∧
      (metaPass (metaPass s)).metaIn = (metaPass s).metaIn ∧
      (metaPass (metaPass s)).metaOut = (metaPass s).metaOut := by
  refine ⟨?_, ?_, ?_, ?_⟩ <;>
    simp [metaPass, summarizeData, createMetaDataFromData, hraw]

/-- Sample one-row dataset shared by the two C9 witness states. -/
def sampleRow : Row :=
  { xs := [("x", JSVal.num 1)], ys := [("y", JSVal.str "a")] }

/-- First C9 witness state: fresh metadata. -/
def sampleStateA : PipelineState :=
  { raw := [sampleRow] }

/-- Second C9 witness state: same raw rows but stale stored metadata. -/
def sampleStateB : PipelineState :=
  { raw := [sampleRow], metaIn := [("stale", { dtype := DType.string })] }

/-- Witness for C9: two states over the same one-row dataset but different
stale metadata produce identical metadata, and a second pass is
idempotent. -/
theorem metaPass_deterministic_witness :
    (metaPass sampleStateA).metaIn = (metaPass sampleStateB).metaIn ∧
      (metaPass sampleStateA).metaOut = (metaPass sampleStateB).metaOut ∧
      (metaPass (metaPass sampleStateA)).metaIn
        = (metaPass sampleStateA).metaIn ∧
      (metaPass (metaPass sampleStateA)).metaOut
        = (metaPass sampleStateA).metaOut :=
  metaPass_deterministic sampleStateA sampleStateB rfl
